import Mathlib

/-!
Verification of the FlowLogRecords parsing-and-aggregation pipeline
(`flow_log_parser.py`): the lookup-table loader and the flow-record
classifier/aggregator, shallowly embedded in Lean.

Python dictionaries and `collections.Counter` are modelled as association
lists with unique keys (`Dict.set` replaces in place, so key sets and
iteration behave like Python's insert-ordered dicts).  File reading is out
of scope: the lookup source is the list of CSV rows that `csv.reader`
yields, and the log source is the list of text lines of the file.
-/

namespace FlowLog

/-! ### Association-list dictionaries (model of Python `dict` / `Counter`) -/

namespace Dict

variable {K : Type} {V : Type} [DecidableEq K]

/-- First (and, with unique keys, only) value stored at `k`. -/
def get? : List (K × V) → K → Option V
  | [], _ => none
  | (a, b) :: t, k => if a = k then some b else get? t k

/-- `d[k] = v`: replace the value at `k` in place, or append a new entry. -/
def set : List (K × V) → K → V → List (K × V)
  | [], k, v => [(k, v)]
  | (a, b) :: t, k, v => if a = k then (k, v) :: t else (a, b) :: set t k v

/-- Membership test, `k in d`. -/
def contains (m : List (K × V)) (k : K) : Bool :=
  (get? m k).isSome

/-- The stored values, `d.values()`. -/
def values (m : List (K × V)) : List V :=
  m.map Prod.snd

/-- `Counter` read: missing keys count as `0`. -/
def getC (m : List (K × Nat)) (k : K) : Nat :=
  (get? m k).getD 0

/-- `Counter` increment, `c[k] += 1`. -/
def incr (m : List (K × Nat)) (k : K) : List (K × Nat) :=
  set m k (getC m k + 1)

/-- `sum(c.values())`. -/
def sumValues (m : List (K × Nat)) : Nat :=
  (m.map Prod.snd).sum

omit [DecidableEq K] in
theorem sumValues_nil : sumValues ([] : List (K × Nat)) = 0 :=
  rfl

/-- Remove the entry at `k`, if any. -/
def erase : List (K × V) → K → List (K × V)
  | [], _ => []
  | (a, b) :: t, k => if a = k then erase t k else (a, b) :: erase t k

end Dict

/-! ### Pieces of Python semantics used by the source -/

/-- `s.strip()`: drop leading and trailing whitespace. -/
def pyStrip (s : String) : String :=
  String.mk (((s.toList.dropWhile Char.isWhitespace).reverse.dropWhile
    Char.isWhitespace).reverse)

/-- Tokenizer behind `pySplit`: `acc` holds the reversed current token. -/
def pyWords : List Char → List Char → List String
  | [], [] => []
  | [], acc => [String.mk acc.reverse]
  | c :: cs, acc =>
      if c.isWhitespace then
        if acc = [] then pyWords cs [] else String.mk acc.reverse :: pyWords cs []
      else pyWords cs (c :: acc)

/-- `line.strip().split()`: split on runs of whitespace, no empty tokens. -/
def pySplit (s : String) : List String :=
  pyWords s.toList []

/-- Digit run of a Python integer literal: digits with single underscores
allowed between digits (`int("1_0") == 10`), accumulated into `acc`. -/
def pyDigitsCore : List Char → Nat → Option Nat
  | [], acc => some acc
  | '_' :: c :: cs, acc =>
      if c.isDigit then pyDigitsCore cs (acc * 10 + (c.toNat - 48)) else none
  | c :: cs, acc =>
      if c.isDigit then pyDigitsCore cs (acc * 10 + (c.toNat - 48)) else none

/-- Nonempty digit run starting with a digit. -/
def pyDigits? : List Char → Option Nat
  | [] => none
  | c :: cs => if c.isDigit then pyDigitsCore cs (c.toNat - 48) else none

/-- Python `int(s)`: surrounding whitespace tolerated, optional sign,
then a digit run; `none` models the `ValueError` on anything else. -/
def pyInt? (s : String) : Option Int :=
  match (pyStrip s).toList with
  | '+' :: rest => (pyDigits? rest).map Int.ofNat
  | '-' :: rest => (pyDigits? rest).map (fun n => -(n : Int))
  | cs => (pyDigits? cs).map Int.ofNat

/-- `parts[i]`: raises `IndexError` out of range, modelled as `Except`. -/
def pyIndex (l : List String) (i : Nat) : Except String String :=
  match l[i]? with
  | some a => Except.ok a
  | none => Except.error "IndexError"

/-! ### The source's constants and functions -/

/-- `PROTOCOL_MAP = {1: "icmp", 6: "tcp", 17: "udp"}`. -/
def PROTOCOL_MAP : List (Int × String) :=
  [(1, "icmp"), (6, "tcp"), (17, "udp")]

/-- `NUM_FIELDS = 14`. -/
def NUM_FIELDS : Nat := 14

/-- Lines 83–87 of the source: `int(protocol)` converted through
`PROTOCOL_MAP.get(_, "Unknown")`, with `except ValueError` also giving
`"Unknown"`. -/
def classifyProtocol (s : String) : String :=
  match pyInt? s with
  | some n => (Dict.get? PROTOCOL_MAP n).getD "Unknown"
  | none => "Unknown"

/-- Loop body of `load_lookup_table`: a row with exactly 3 fields is
unpacked as `port, protocol, tag` and inserted stripped; any other row is
skipped. -/
def lookupStep (lookup : List ((String × String) × String)) (row : List String) :
    List ((String × String) × String) :=
  match row with
  | [port, protocol, tag] => Dict.set lookup (pyStrip port, pyStrip protocol) (pyStrip tag)
  | _ => lookup

/-- The (stripped) key a row would write: `some (port, protocol)` for a
3-field row, `none` for a row the loader skips. -/
def rowKey? (row : List String) : Option (String × String) :=
  match row with
  | [port, protocol, _] => some (pyStrip port, pyStrip protocol)
  | _ => none

/-- `load_lookup_table`, on the rows produced by `csv.reader`.
`next(reader)` raises `StopIteration` on an empty source — the exception
is caught, reported and re-raised, which `none` models; otherwise the
header row is discarded unconditionally and the remaining rows folded. -/
def load_lookup_table (rows : List (List String)) :
    Option (List ((String × String) × String)) :=
  match rows with
  | [] => none
  | _header :: dataRows => some (dataRows.foldl lookupStep [])

/-- The classifier's per-pass state: the two counters plus the
`untagged_count` accumulator of line 64. -/
structure St where
  tc : List (String × Nat)
  ppc : List ((String × String) × Nat)
  untagged : Nat
  deriving Repr, DecidableEq

/-- Loop body of `parse_flow_logs` (lines 68–101): skip blank lines and
lines with fewer than `NUM_FIELDS` fields; otherwise build the key from
`parts[6]` and the classified `parts[7]`, credit the looked-up tag or the
untagged counter, and always credit the key in `port_protocol_counts`. -/
def processLine (lookup : List ((String × String) × String)) (st : St)
    (line : String) : St :=
  let parts := pySplit line
  if parts = [] then st
  else if parts.length < NUM_FIELDS then st
  else
    let dstport := pyStrip (parts[6]?.getD "")
    let protocol := classifyProtocol (pyStrip (parts[7]?.getD ""))
    let key := (dstport, protocol)
    let st' :=
      match Dict.get? lookup key with
      | some tag => { st with tc := Dict.incr st.tc tag }
      | none => { st with untagged := st.untagged + 1 }
    { st' with ppc := Dict.incr st'.ppc key }

/-- `parse_flow_logs`: fold the per-line step over the log's lines, then
line 103's `tag_counts["Untagged"] = untagged_count`. -/
def parse_flow_logs (lookup : List ((String × String) × String))
    (lines : List String) : List (String × Nat) × List ((String × String) × Nat) :=
  let st := lines.foldl (processLine lookup) ⟨[], [], 0⟩
  (Dict.set st.tc "Untagged" st.untagged, st.ppc)

/-! ### Exception-level model of the per-line step (for the
error-handling claim): every operation of the loop body that can raise in
Python is given its raising behaviour, with the source's handlers as
written. -/

/-- The loop body with explicit exceptions: indexing may raise
`IndexError`, `int()` raises `ValueError` (caught by line 86's handler),
`lookup[key]` raises `KeyError` (guarded by line 92's `in` test). -/
def processLineE (lookup : List ((String × String) × String)) (st : St)
    (line : String) : Except String St := do
  let parts := pySplit line
  if parts = [] then return st
  if parts.length < NUM_FIELDS then return st
  let rawPort ← pyIndex parts 6
  let rawProto ← pyIndex parts 7
  let dstport := pyStrip rawPort
  let protocol := classifyProtocol (pyStrip rawProto)
  let key := (dstport, protocol)
  let st' ←
    if Dict.contains lookup key then do
      let tag ←
        match Dict.get? lookup key with
        | some t => Except.ok t
        | none => Except.error "KeyError"
      Except.ok { st with tc := Dict.incr st.tc tag }
    else
      Except.ok { st with untagged := st.untagged + 1 }
  return { st' with ppc := Dict.incr st'.ppc key }

/-- `parse_flow_logs` at the exception level: the fold stops at the first
record-level exception that escapes the loop body. -/
def parse_flow_logsE (lookup : List ((String × String) × String))
    (lines : List String) :
    Except String (List (String × Nat) × List ((String × String) × Nat)) := do
  let st ← lines.foldlM (processLineE lookup) ⟨[], [], 0⟩
  return (Dict.set st.tc "Untagged" st.untagged, st.ppc)

/-- Number of well-formed lines: at least `NUM_FIELDS` whitespace-delimited
fields (blank lines split to `[]` and are excluded with the short ones). -/
def wellFormedCount (lines : List String) : Nat :=
  (lines.filter (fun l => NUM_FIELDS ≤ (pySplit l).length)).length

/-- The (port, canonical protocol) key a well-formed line produces. -/
def lineKey (line : String) : String × String :=
  (pyStrip ((pySplit line)[6]?.getD ""),
   classifyProtocol (pyStrip ((pySplit line)[7]?.getD "")))

/-- All counts in a counter are at least 1. -/
def Dict.AllPos {K : Type} (m : List (K × Nat)) : Prop :=
  ∀ p ∈ m, 1 ≤ p.2

/-! ## Dictionary lemmas -/

namespace Dict

variable {K V : Type} [DecidableEq K]

theorem get?_set_self (m : List (K × V)) (k : K) (v : V) :
    get? (set m k v) k = some v := by
  induction m with
  | nil => simp [set, get?]
  | cons p t ih =>
      obtain ⟨a, b⟩ := p
      by_cases h : a = k <;> simp [set, get?, h, ih]

theorem get?_set_ne (m : List (K × V)) {k k' : K} (v : V) (h : k ≠ k') :
    get? (set m k v) k' = get? m k' := by
  induction m with
  | nil => simp [set, get?, h]
  | cons p t ih =>
      obtain ⟨a, b⟩ := p
      by_cases ha : a = k
      · subst ha; simp [set, get?, h]
      · simp only [set, if_neg ha, get?]
        by_cases ha' : a = k' <;> simp [ha', ih]

theorem get?_mem {m : List (K × V)} {k : K} {v : V} (h : get? m k = some v) :
    (k, v) ∈ m := by
  induction m with
  | nil => simp [get?] at h
  | cons p t ih =>
      obtain ⟨a, b⟩ := p
      by_cases ha : a = k
      · subst ha
        simp [get?] at h
        simp [h]
      · simp [get?, ha] at h
        simpa using Or.inr (ih h)

theorem mem_values_of_get? {m : List (K × V)} {k : K} {v : V}
    (h : get? m k = some v) : v ∈ values m := by
  have := get?_mem h
  exact List.mem_map.mpr ⟨(k, v), this, rfl⟩

theorem mem_set {m : List (K × V)} {k : K} {v : V} {p : K × V}
    (h : p ∈ set m k v) : p ∈ m ∨ p = (k, v) := by
  induction m with
  | nil => simp [set] at h; simp [h]
  | cons q t ih =>
      obtain ⟨a, b⟩ := q
      by_cases ha : a = k
      · subst ha
        simp [set] at h
        rcases h with h | h
        · exact Or.inr h
        · exact Or.inl (List.mem_cons_of_mem _ h)
      · simp [set, ha] at h
        rcases h with h | h
        · exact Or.inl (by simp [h])
        · rcases ih h with h' | h'
          · exact Or.inl (List.mem_cons_of_mem _ h')
          · exact Or.inr h'

theorem sum_set_of_get?_none {m : List (K × Nat)} {k : K} (v : Nat)
    (h : get? m k = none) : sumValues (set m k v) = sumValues m + v := by
  induction m with
  | nil => simp [set, sumValues]
  | cons p t ih =>
      obtain ⟨a, b⟩ := p
      by_cases ha : a = k
      · simp [get?, ha] at h
      · simp only [get?, if_neg ha] at h
        have ih' := ih h
        simp [set, ha, sumValues] at ih' ⊢
        omega

theorem sum_incr (m : List (K × Nat)) (k : K) :
    sumValues (incr m k) = sumValues m + 1 := by
  induction m with
  | nil => simp [incr, set, sumValues, getC, get?]
  | cons p t ih =>
      obtain ⟨a, b⟩ := p
      by_cases ha : a = k
      · subst ha
        simp [incr, set, sumValues, getC, get?]
        omega
      · simp only [incr, getC, get?, if_neg ha, set] at ih ⊢
        simp [sumValues] at ih ⊢
        omega

theorem get?_incr_ne (m : List (K × Nat)) {k k' : K} (h : k ≠ k') :
    get? (incr m k) k' = get? m k' :=
  get?_set_ne m _ h

theorem get?_erase_ne (m : List (K × V)) {k k' : K} (h : k' ≠ k) :
    get? (erase m k) k' = get? m k' := by
  induction m with
  | nil => simp [erase]
  | cons p t ih =>
      obtain ⟨a, b⟩ := p
      by_cases ha : a = k
      · subst ha
        have hne : ¬ a = k' := fun hc => h hc.symm
        simp [erase, get?, hne, ih]
      · by_cases ha' : a = k' <;> simp [erase, get?, ha, ha', ih, h]

theorem allPos_incr {m : List (K × Nat)} (k : K) (h : AllPos m) :
    AllPos (incr m k) := by
  intro p hp
  rcases mem_set hp with h' | h'
  · exact h p h'
  · simp [h']

end Dict

/-! ## Per-line behaviour of the classifier -/

theorem processLine_skip (lookup : List ((String × String) × String)) (st : St)
    (line : String) (h : (pySplit line).length < NUM_FIELDS) :
    processLine lookup st line = st := by
  unfold processLine
  by_cases hE : pySplit line = [] <;> simp [hE, h]

theorem processLine_tagged (lookup : List ((String × String) × String)) (st : St)
    (line : String) (tag : String) (h : NUM_FIELDS ≤ (pySplit line).length)
    (hk : Dict.get? lookup (lineKey line) = some tag) :
    processLine lookup st line =
      { st with tc := Dict.incr st.tc tag,
                ppc := Dict.incr st.ppc (lineKey line) } := by
  have hne : ¬ pySplit line = [] := by
    intro hE
    rw [hE] at h
    simp [NUM_FIELDS] at h
  have hlt : ¬ (pySplit line).length < NUM_FIELDS := by omega
  unfold processLine
  unfold lineKey at hk
  simp [hne, hlt, hk, lineKey]

theorem processLine_untagged (lookup : List ((String × String) × String)) (st : St)
    (line : String) (h : NUM_FIELDS ≤ (pySplit line).length)
    (hk : Dict.get? lookup (lineKey line) = none) :
    processLine lookup st line =
      { st with untagged := st.untagged + 1,
                ppc := Dict.incr st.ppc (lineKey line) } := by
  have hne : ¬ pySplit line = [] := by
    intro hE
    rw [hE] at h
    simp [NUM_FIELDS] at h
  have hlt : ¬ (pySplit line).length < NUM_FIELDS := by omega
  unfold processLine
  unfold lineKey at hk
  simp [hne, hlt, hk, lineKey]

theorem wellFormedCount_cons (l : String) (ls : List String) :
    wellFormedCount (l :: ls) =
      (if NUM_FIELDS ≤ (pySplit l).length then 1 else 0) + wellFormedCount ls := by
  by_cases h : NUM_FIELDS ≤ (pySplit l).length
  · simp [wellFormedCount, List.filter_cons, h]
    omega
  · simp [wellFormedCount, List.filter_cons, h]

/-- Main fold invariant behind the conservation claim: while no lookup tag
is the sentinel `"Untagged"`, the key `"Untagged"` never enters
`tag_counts`, and each counter's total grows exactly with the number of
well-formed lines. -/
theorem fold_inv_conservation (lookup : List ((String × String) × String))
    (hU : "Untagged" ∉ Dict.values lookup) :
    ∀ (lines : List String) (st : St),
      Dict.get? st.tc "Untagged" = none →
      Dict.get? (lines.foldl (processLine lookup) st).tc "Untagged" = none ∧
      Dict.sumValues (lines.foldl (processLine lookup) st).tc +
          (lines.foldl (processLine lookup) st).untagged =
        Dict.sumValues st.tc + st.untagged + wellFormedCount lines ∧
      Dict.sumValues (lines.foldl (processLine lookup) st).ppc =
        Dict.sumValues st.ppc + wellFormedCount lines := by
  intro lines
  induction lines with
  | nil =>
      intro st h
      refine ⟨h, ?_, ?_⟩ <;> simp [wellFormedCount]
  | cons l ls ih =>
      intro st h
      rw [List.foldl_cons]
      by_cases hwf : NUM_FIELDS ≤ (pySplit l).length
      · cases hk : Dict.get? lookup (lineKey l) with
        | some tag =>
            have htag : tag ≠ "Untagged" := by
              intro hEq
              exact hU (hEq ▸ Dict.mem_values_of_get? hk)
            rw [processLine_tagged lookup st l tag hwf hk]
            have h' :
                Dict.get? (Dict.incr st.tc tag) "Untagged" = none := by
              rw [Dict.get?_incr_ne _ htag]; exact h
            obtain ⟨i1, i2, i3⟩ :=
              ih { tc := Dict.incr st.tc tag,
                   ppc := Dict.incr st.ppc (lineKey l),
                   untagged := st.untagged } h'
            refine ⟨i1, ?_, ?_⟩
            · rw [i2]
              simp [Dict.sum_incr, wellFormedCount_cons, hwf]
              omega
            · rw [i3]
              simp [Dict.sum_incr, wellFormedCount_cons, hwf]
              omega
        | none =>
            rw [processLine_untagged lookup st l hwf hk]
            obtain ⟨i1, i2, i3⟩ :=
              ih { tc := st.tc,
                   ppc := Dict.incr st.ppc (lineKey l),
                   untagged := st.untagged + 1 } h
            refine ⟨i1, ?_, ?_⟩
            · rw [i2]
              simp [wellFormedCount_cons, hwf]
              omega
            · rw [i3]
              simp [Dict.sum_incr, wellFormedCount_cons, hwf]
              omega
      · rw [processLine_skip lookup st l (by omega)]
        obtain ⟨i1, i2, i3⟩ := ih st h
        refine ⟨i1, ?_, ?_⟩
        · rw [i2, wellFormedCount_cons]
          simp [hwf]
        · rw [i3, wellFormedCount_cons]
          simp [hwf]

/-- Both counters only ever hold counts ≥ 1 during the fold. -/
theorem fold_inv_pos (lookup : List ((String × String) × String)) :
    ∀ (lines : List String) (st : St),
      Dict.AllPos st.tc → Dict.AllPos st.ppc →
      Dict.AllPos (lines.foldl (processLine lookup) st).tc ∧
      Dict.AllPos (lines.foldl (processLine lookup) st).ppc := by
  intro lines
  induction lines with
  | nil => intro st h1 h2; exact ⟨h1, h2⟩
  | cons l ls ih =>
      intro st h1 h2
      rw [List.foldl_cons]
      by_cases hwf : NUM_FIELDS ≤ (pySplit l).length
      · cases hk : Dict.get? lookup (lineKey l) with
        | some tag =>
            rw [processLine_tagged lookup st l tag hwf hk]
            exact ih { tc := Dict.incr st.tc tag,
                       ppc := Dict.incr st.ppc (lineKey l),
                       untagged := st.untagged }
              (Dict.allPos_incr tag h1) (Dict.allPos_incr _ h2)
        | none =>
            rw [processLine_untagged lookup st l hwf hk]
            exact ih { tc := st.tc,
                       ppc := Dict.incr st.ppc (lineKey l),
                       untagged := st.untagged + 1 }
              h1 (Dict.allPos_incr _ h2)
      · rw [processLine_skip lookup st l (by omega)]
        exact ih st h1 h2

/-! ## The exception-level loop body never escapes with a record error -/

theorem pyIndex_lt {l : List String} {i : Nat} (h : i < l.length) :
    pyIndex l i = Except.ok (l[i]?.getD "") := by
  unfold pyIndex
  cases hg : l[i]? with
  | none =>
      rw [List.getElem?_eq_none_iff] at hg
      omega
  | some a => simp [hg]

theorem processLineE_ok (lookup : List ((String × String) × String)) (st : St)
    (line : String) :
    processLineE lookup st line = Except.ok (processLine lookup st line) := by
  unfold processLineE processLine
  by_cases hE : pySplit line = []
  · simp [hE, pure, Except.pure]
  · by_cases hlt : (pySplit line).length < NUM_FIELDS
    · simp [hE, hlt, pure, Except.pure, bind, Except.bind]
    · have h6 : 6 < (pySplit line).length := by
        simp [NUM_FIELDS] at hlt; omega
      have h7 : 7 < (pySplit line).length := by
        simp [NUM_FIELDS] at hlt; omega
      simp only [hE, hlt, if_neg, if_false, pyIndex_lt h6, pyIndex_lt h7]
      cases hk :
          Dict.get? lookup
            (pyStrip ((pySplit line)[6]?.getD ""),
             classifyProtocol (pyStrip ((pySplit line)[7]?.getD ""))) with
      | some tag => simp [hE, hlt, Dict.contains, hk, bind, Except.bind, pure, Except.pure]
      | none => simp [hE, hlt, Dict.contains, hk, bind, Except.bind, pure, Except.pure]

theorem foldlM_processLineE_ok (lookup : List ((String × String) × String)) :
    ∀ (lines : List String) (st : St),
      lines.foldlM (processLineE lookup) st =
        Except.ok (lines.foldl (processLine lookup) st) := by
  intro lines
  induction lines with
  | nil => intro st; rfl
  | cons l ls ih =>
      intro st
      rw [List.foldlM_cons, processLineE_ok]
      simp only [List.foldl_cons]
      calc (Except.ok (processLine lookup st l) >>= fun s => ls.foldlM (processLineE lookup) s)
          = ls.foldlM (processLineE lookup) (processLine lookup st l) := rfl
        _ = Except.ok (ls.foldl (processLine lookup) (processLine lookup st l)) := ih _

/-! ## The classifier never produces an uppercase protocol name -/

theorem classifyProtocol_ne_TCP (s : String) : classifyProtocol s ≠ "TCP" := by
  unfold classifyProtocol
  cases h : pyInt? s with
  | none => decide
  | some n =>
      simp only [PROTOCOL_MAP, Dict.get?]
      split_ifs <;> decide

theorem processLine_erase_TCP (lookup : List ((String × String) × String))
    (st : St) (line : String) (p : String) :
    processLine (Dict.erase lookup (p, "TCP")) st line =
      processLine lookup st line := by
  by_cases hwf : NUM_FIELDS ≤ (pySplit line).length
  · have hne : lineKey line ≠ (p, "TCP") := by
      intro hEq
      exact classifyProtocol_ne_TCP (pyStrip ((pySplit line)[7]?.getD ""))
        (congrArg Prod.snd hEq)
    have hg :
        Dict.get? (Dict.erase lookup (p, "TCP")) (lineKey line) =
          Dict.get? lookup (lineKey line) :=
      Dict.get?_erase_ne lookup hne
    cases hk : Dict.get? lookup (lineKey line) with
    | some tag =>
        rw [processLine_tagged _ st line tag hwf hk,
          processLine_tagged _ st line tag hwf (hg.trans hk)]
    | none =>
        rw [processLine_untagged _ st line hwf hk,
          processLine_untagged _ st line hwf (hg.trans hk)]
  · rw [processLine_skip _ st line (by omega), processLine_skip _ st line (by omega)]

/-- A row that does not write key `k` leaves `k`'s binding unchanged. -/
theorem get?_lookupStep_of_rowKey_ne (m : List ((String × String) × String))
    (row : List String) (k : String × String) (h : rowKey? row ≠ some k) :
    Dict.get? (lookupStep m row) k = Dict.get? m k := by
  rcases row with _ | ⟨a, _ | ⟨b, _ | ⟨c, _ | ⟨d, rest⟩⟩⟩⟩
  · rfl
  · rfl
  · rfl
  · have hne : (pyStrip a, pyStrip b) ≠ k := by
      intro hEq
      exact h (by simp [rowKey?, hEq])
    exact Dict.get?_set_ne m _ hne
  · rfl

/-- Folding rows none of which writes key `k` leaves `k`'s binding
unchanged. -/
theorem get?_foldl_lookupStep_of_rowKey_ne (k : String × String) :
    ∀ (rows : List (List String)) (m : List ((String × String) × String)),
      (∀ row ∈ rows, rowKey? row ≠ some k) →
      Dict.get? (rows.foldl lookupStep m) k = Dict.get? m k := by
  intro rows
  induction rows with
  | nil => intro m _; rfl
  | cons r rs ih =>
      intro m h
      rw [List.foldl_cons, ih _ (fun row hrow => h row (List.mem_cons_of_mem r hrow)),
        get?_lookupStep_of_rowKey_ne m r k (h r (List.mem_cons_self r rs))]

theorem fold_erase_TCP (lookup : List ((String × String) × String)) (p : String) :
    ∀ (lines : List String) (st : St),
      lines.foldl (processLine (Dict.erase lookup (p, "TCP"))) st =
        lines.foldl (processLine lookup) st := by
  intro lines
  induction lines with
  | nil => intro st; rfl
  | cons l ls ih =>
      intro st
      rw [List.foldl_cons, List.foldl_cons, processLine_erase_TCP, ih]

/-! ## The claims -/

/-- C1 as stated is false: line 103 *assigns* `tag_counts["Untagged"] =
untagged_count` after the pass, so a lookup whose tag is literally
`"Untagged"` has its tagged increments overwritten.  With that lookup and
one well-formed record, `TagCounts` sums to 0 while `PortProtocolCounts`
sums to 1 (= the number of well-formed lines). -/
theorem C1_counterexample :
    Dict.sumValues (parse_flow_logs [(("80", "tcp"), "Untagged")]
        ["2 a b c d e 80 6 f g h i j k"]).1 = 0 ∧
    Dict.sumValues (parse_flow_logs [(("80", "tcp"), "Untagged")]
        ["2 a b c d e 80 6 f g h i j k"]).2 = 1 ∧
    wellFormedCount ["2 a b c d e 80 6 f g h i j k"] = 1 := by
  decide

/-- C1 (amended): for every lookup table none of whose tags is the
sentinel `"Untagged"` and every log input, the sum of `TagCounts` values
equals the sum of `PortProtocolCounts` values, and both equal the number
of input lines with at least `NUM_FIELDS` whitespace-delimited fields. -/
theorem C1_conservation (lookup : List ((String × String) × String))
    (lines : List String) (hU : "Untagged" ∉ Dict.values lookup) :
    Dict.sumValues (parse_flow_logs lookup lines).1 =
      Dict.sumValues (parse_flow_logs lookup lines).2 ∧
    Dict.sumValues (parse_flow_logs lookup lines).2 = wellFormedCount lines := by
  obtain ⟨i1, i2, i3⟩ :=
    fold_inv_conservation lookup hU lines ⟨[], [], 0⟩ rfl
  simp [Dict.sumValues_nil] at i2 i3
  have e1 : (parse_flow_logs lookup lines).1 =
      Dict.set (lines.foldl (processLine lookup) ⟨[], [], 0⟩).tc "Untagged"
        (lines.foldl (processLine lookup) ⟨[], [], 0⟩).untagged := rfl
  have e2 : (parse_flow_logs lookup lines).2 =
      (lines.foldl (processLine lookup) ⟨[], [], 0⟩).ppc := rfl
  rw [e1, e2, Dict.sum_set_of_get?_none _ i1]
  constructor
  · omega
  · omega

/-- Witness for the amended C1 at a concrete lookup and log. -/
theorem C1_conservation_witness :
    ("Untagged" ∉
      Dict.values ([(("80", "tcp"), "web")] : List ((String × String) × String))) ∧
    Dict.sumValues (parse_flow_logs [(("80", "tcp"), "web")]
        ["2 a b c d e 80 6 f g h i j k"]).1 =
      Dict.sumValues (parse_flow_logs [(("80", "tcp"), "web")]
        ["2 a b c d e 80 6 f g h i j k"]).2 ∧
    Dict.sumValues (parse_flow_logs [(("80", "tcp"), "web")]
        ["2 a b c d e 80 6 f g h i j k"]).2 =
      wellFormedCount ["2 a b c d e 80 6 f g h i j k"] :=
  ⟨by decide,
   (C1_conservation [(("80", "tcp"), "web")] ["2 a b c d e 80 6 f g h i j k"]
      (by decide)).1,
   (C1_conservation [(("80", "tcp"), "web")] ["2 a b c d e 80 6 f g h i j k"]
      (by decide)).2⟩

/-- C2 as stated is false: the code's sentinel protocol name is
`"Unknown"` (capital U, line 85), not the lowercase `"unknown"` the claim
names.  A record with protocol field `"abc"` lands under the key
`("80", "Unknown")`; no key with `"unknown"` is ever formed. -/
theorem C2_counterexample :
    Dict.get? (parse_flow_logs [] ["2 a b c d e 80 abc f g h i j k"]).2
        ("80", "unknown") = none ∧
    Dict.get? (parse_flow_logs [] ["2 a b c d e 80 abc f g h i j k"]).2
        ("80", "Unknown") = some 1 ∧
    classifyProtocol "abc" ≠ "unknown" := by
  decide

/-- C2 (amended): every well-formed record whose protocol field is
non-numeric or an integer outside {1, 6, 17} (negative included) is
classified with canonical protocol `"Unknown"`, the lookup key is formed
with it, and when `(port, "Unknown")` is absent from the lookup the
record only bumps the untagged counter and the key's entry in
`port_protocol_counts`. -/
theorem C2_unknown_fallback (lookup : List ((String × String) × String))
    (st : St) (line : String)
    (hwf : NUM_FIELDS ≤ (pySplit line).length)
    (hbad : pyInt? (pyStrip ((pySplit line)[7]?.getD "")) = none ∨
      ∃ n : Int, pyInt? (pyStrip ((pySplit line)[7]?.getD "")) = some n ∧
        n ≠ 1 ∧ n ≠ 6 ∧ n ≠ 17) :
    classifyProtocol (pyStrip ((pySplit line)[7]?.getD "")) = "Unknown" ∧
    (Dict.get? lookup (pyStrip ((pySplit line)[6]?.getD ""), "Unknown") = none →
      (processLine lookup st line).untagged = st.untagged + 1 ∧
      (processLine lookup st line).tc = st.tc ∧
      (processLine lookup st line).ppc =
        Dict.incr st.ppc (pyStrip ((pySplit line)[6]?.getD ""), "Unknown")) := by
  have hcl : classifyProtocol (pyStrip ((pySplit line)[7]?.getD "")) = "Unknown" := by
    rcases hbad with h | ⟨n, hn, h1, h6, h17⟩
    · simp [classifyProtocol, h]
    · have e1 : ¬((1 : Int) = n) := fun hh => h1 hh.symm
      have e6 : ¬((6 : Int) = n) := fun hh => h6 hh.symm
      have e17 : ¬((17 : Int) = n) := fun hh => h17 hh.symm
      simp [classifyProtocol, hn, PROTOCOL_MAP, Dict.get?, e1, e6, e17]
  refine ⟨hcl, fun hnone => ?_⟩
  have hkey : lineKey line = (pyStrip ((pySplit line)[6]?.getD ""), "Unknown") := by
    unfold lineKey
    rw [hcl]
  rw [processLine_untagged lookup st line hwf (by rw [hkey]; exact hnone)]
  exact ⟨rfl, rfl, by rw [hkey]⟩

/-- Witness for the amended C2: a record with protocol `"abc"` against
the empty lookup. -/
theorem C2_unknown_fallback_witness :
    classifyProtocol "abc" = "Unknown" ∧
    (processLine [] ⟨[], [], 0⟩ "2 a b c d e 80 abc f g h i j k").untagged = 0 + 1 ∧
    (processLine [] ⟨[], [], 0⟩ "2 a b c d e 80 abc f g h i j k").tc = [] ∧
    (processLine [] ⟨[], [], 0⟩ "2 a b c d e 80 abc f g h i j k").ppc =
      Dict.incr [] ("80", "Unknown") :=
  have h := C2_unknown_fallback [] ⟨[], [], 0⟩ "2 a b c d e 80 abc f g h i j k"
    (by decide) (Or.inl (by decide))
  have h2 := h.2 (by decide)
  ⟨h.1, h2.1, h2.2.1, h2.2.2⟩

/-- C3: for every lookup table and log input, the returned `TagCounts`
holds an entry for the sentinel key `"Untagged"` (line 103 assigns it
unconditionally), necessarily with a value ≥ 0. -/
theorem C3_untagged_present (lookup : List ((String × String) × String))
    (lines : List String) :
    ∃ n : Nat, Dict.get? (parse_flow_logs lookup lines).1 "Untagged" = some n ∧
      0 ≤ n := by
  refine ⟨(lines.foldl (processLine lookup) ⟨[], [], 0⟩).untagged, ?_, Nat.zero_le _⟩
  exact Dict.get?_set_self _ _ _

/-- C4: last write wins per key.  For a data row `[p, q, t]` preceded by
arbitrary rows and followed by arbitrary rows none of which writes the
same (stripped) key — i.e. `[p, q, t]` is the key's last occurrence —
the loaded mapping sends `(p, q)` to this row's tag `t`, overwriting any
earlier binding and surviving all later rows. -/
theorem C4_last_write_wins (header : List String) (rows1 rows2 : List (List String))
    (p q t : String)
    (h : ∀ row ∈ rows2, rowKey? row ≠ some (pyStrip p, pyStrip q)) :
    ∃ m, load_lookup_table (header :: (rows1 ++ [p, q, t] :: rows2)) = some m ∧
      Dict.get? m (pyStrip p, pyStrip q) = some (pyStrip t) := by
  refine ⟨(rows1 ++ [p, q, t] :: rows2).foldl lookupStep [], rfl, ?_⟩
  rw [List.foldl_append, List.foldl_cons,
    get?_foldl_lookupStep_of_rowKey_ne _ rows2 _ h]
  exact Dict.get?_set_self _ _ _

/-- Witness for C4, mirroring `test_duplicate_entries`: the second
`80,tcp` row wins and survives the three later rows with other keys. -/
theorem C4_last_write_wins_witness :
    (∀ row ∈ [["443", "tcp", "secure-web"], ["53", "udp", "dns-1"],
        ["53", "udp", "dns-2"]],
      rowKey? row ≠ some ("80", "tcp")) ∧
    ∃ m, load_lookup_table [["port", "protocol", "tag"],
        ["80", "tcp", "web-traffic-1"], ["80", "tcp", "web-traffic-2"],
        ["443", "tcp", "secure-web"], ["53", "udp", "dns-1"],
        ["53", "udp", "dns-2"]] = some m ∧
      Dict.get? m ("80", "tcp") = some "web-traffic-2" :=
  ⟨by decide,
   C4_last_write_wins ["port", "protocol", "tag"] [["80", "tcp", "web-traffic-1"]]
     [["443", "tcp", "secure-web"], ["53", "udp", "dns-1"], ["53", "udp", "dns-2"]]
     "80" "tcp" "web-traffic-2" (by decide)⟩

/-- C5: a blank line or a line splitting into fewer than `NUM_FIELDS`
whitespace-delimited fields can be deleted from the log without changing
either returned mapping — it contributes to no key of either counter. -/
theorem C5_malformed_skip (lookup : List ((String × String) × String))
    (pre post : List String) (line : String)
    (h : (pySplit line).length < NUM_FIELDS) :
    parse_flow_logs lookup (pre ++ line :: post) =
      parse_flow_logs lookup (pre ++ post) := by
  unfold parse_flow_logs
  rw [List.foldl_append, List.foldl_cons, processLine_skip lookup _ line h,
    ← List.foldl_append]

/-- Witness for C5 on a concrete 2-field line. -/
theorem C5_malformed_skip_witness :
    (pySplit "short line").length < NUM_FIELDS ∧
    parse_flow_logs [] ["short line"] = parse_flow_logs [] [] :=
  ⟨by decide, C5_malformed_skip [] [] [] "short line" (by decide)⟩

/-- C6: the exception-level model of the pass — where indexing,
`int()` and `lookup[key]` raise as in Python and only the source's own
handlers catch — never escapes with a record-level error: it returns
`Except.ok` of exactly the two counters of the pure pass, for every
lookup and every log content. -/
theorem C6_no_record_level_failure (lookup : List ((String × String) × String))
    (lines : List String) :
    parse_flow_logsE lookup lines = Except.ok (parse_flow_logs lookup lines) := by
  unfold parse_flow_logsE parse_flow_logs
  rw [foldlM_processLineE_ok]
  rfl

/-- C7: the loader discards the first row unconditionally and folds the
rest; a 3-field row is inserted with each field stripped; a row of any
other field count leaves the mapping unchanged. -/
theorem C7_loader_shape :
    (∀ (header : List String) (rows : List (List String)),
      load_lookup_table (header :: rows) = some (rows.foldl lookupStep [])) ∧
    (∀ (m : List ((String × String) × String)) (p q t : String),
      lookupStep m [p, q, t] = Dict.set m (pyStrip p, pyStrip q) (pyStrip t)) ∧
    (∀ (m : List ((String × String) × String)) (row : List String),
      row.length ≠ 3 → lookupStep m row = m) := by
  refine ⟨fun _ _ => rfl, fun _ _ _ _ => rfl, ?_⟩
  intro m row h
  rcases row with _ | ⟨a, _ | ⟨b, _ | ⟨c, _ | ⟨d, rest⟩⟩⟩⟩
  · rfl
  · rfl
  · rfl
  · exact absurd rfl h
  · rfl

/-- Witness for C7: header skipped, malformed rows skipped, valid row
inserted stripped. -/
theorem C7_loader_shape_witness :
    lookupStep [] ["x"] = [] ∧
    lookupStep [] [" a ", "b", " c"] = [(("a", "b"), "c")] ∧
    load_lookup_table [["h"], ["x"], [" a ", "b", " c"]] =
      some [(("a", "b"), "c")] := by
  refine ⟨C7_loader_shape.2.2 [] ["x"] (by decide), ?_, ?_⟩
  · rw [C7_loader_shape.2.1]
    decide
  · rw [C7_loader_shape.1]
    decide

/-- C8: the classifier never produces the protocol name `"TCP"`, so a
lookup entry keyed `(p, "TCP")` is never consulted: removing it changes
neither returned mapping, for every log input. -/
theorem C8_uppercase_protocol_never_matches
    (lookup : List ((String × String) × String)) (p : String)
    (lines : List String) :
    (∀ s, classifyProtocol s ≠ "TCP") ∧
    parse_flow_logs (Dict.erase lookup (p, "TCP")) lines =
      parse_flow_logs lookup lines := by
  refine ⟨classifyProtocol_ne_TCP, ?_⟩
  unfold parse_flow_logs
  rw [fold_erase_TCP]

/-- C9: an empty lookup source (no header row at all) makes the loader
fail — `next(reader)` raises `StopIteration`, which the handler re-raises
— while a header-only source loads the empty mapping. -/
theorem C9_empty_lookup_source :
    load_lookup_table ([] : List (List String)) = none ∧
    ∀ header : List String, load_lookup_table [header] = some [] :=
  ⟨rfl, fun _ => rfl⟩

/-- C10: every key present in `PortProtocolCounts` has count ≥ 1, and
every tag other than the sentinel `"Untagged"` present in `TagCounts` has
count ≥ 1 — only `"Untagged"` may carry 0. -/
theorem C10_key_presence_counts (lookup : List ((String × String) × String))
    (lines : List String) :
    (∀ k n, Dict.get? (parse_flow_logs lookup lines).2 k = some n → 1 ≤ n) ∧
    (∀ t n, t ≠ "Untagged" →
      Dict.get? (parse_flow_logs lookup lines).1 t = some n → 1 ≤ n) := by
  obtain ⟨h1, h2⟩ := fold_inv_pos lookup lines ⟨[], [], 0⟩
    (by intro p hp; cases hp) (by intro p hp; cases hp)
  constructor
  · intro k n hget
    exact h2 (k, n) (Dict.get?_mem hget)
  · intro t n ht hget
    have hne : "Untagged" ≠ t := fun hEq => ht hEq.symm
    have hget' :
        Dict.get? (lines.foldl (processLine lookup) ⟨[], [], 0⟩).tc t = some n := by
      have e := Dict.get?_set_ne
        (lines.foldl (processLine lookup) (⟨[], [], 0⟩ : St)).tc
        ((lines.foldl (processLine lookup) (⟨[], [], 0⟩ : St)).untagged) hne
      rw [← e]
      exact hget
    exact h1 (t, n) (Dict.get?_mem hget')

/-- Witness for C10 at a concrete tagged record. -/
theorem C10_key_presence_counts_witness :
    Dict.get? (parse_flow_logs [(("80", "tcp"), "web")]
        ["2 a b c d e 80 6 f g h i j k"]).1 "web" = some 1 ∧
    (1 : Nat) ≤ 1 :=
  ⟨by decide,
   (C10_key_presence_counts [(("80", "tcp"), "web")]
      ["2 a b c d e 80 6 f g h i j k"]).2 "web" 1 (by decide) (by decide)⟩

end FlowLog
